import Mathlib

/-!
Verification development for the Papillon feed-manager core
(`server/algos/feed.py`): cursor pagination, cache serving, blueprint
fingerprinting, the single-flight build guard, the build-time content
filter (author cap, age window) and the composite ranking score.

Modelling conventions:
* Python floats (timestamps, weights) are modelled exactly, by `ℚ` where the
  code only compares and adds them, and by `ℝ` where it applies `exp`/`log`.
* Fallible Python operations (`int(...)`, `datetime.fromisoformat`) are
  modelled by `Option`-returning functions; a raised exception that escapes
  a function is modelled by `Except`.
* Network calls (`get_cache_from_api`, `fetch_full_post`, search fetches)
  are modelled as explicit parameters: an `Option`-valued store or function,
  covering both success and failure outcomes.
-/

namespace Papillon

/-- Constant from feed.py line 23: posts per api response. -/
def RESPONSE_LIMIT : ℕ := 10

/-- Constant from feed.py line 24: number of total posts in a feed. -/
def FEED_LIMIT : ℕ := 100

/-- Constant from feed.py line 25: max posts per author in a feed. -/
def MAX_PER_AUTHOR : ℕ := 10

/-- Constant from feed.py line 26: 48 hours in seconds. -/
def MAX_AGE_SECONDS : ℚ := 48 * 60 * 60

/-- Constant from feed.py line 22: 5 minutes for the long-term feed cache. -/
def FEED_CACHE_TTL : ℚ := 300

/-- Python whitespace characters stripped by `int(str)`. -/
def isPySpace (c : Char) : Bool :=
  c = ' ' ∨ c = '\t' ∨ c = '\n' ∨ c = '\r' ∨ c = '\x0b' ∨ c = '\x0c'

/-- Strip leading and trailing whitespace, as Python `int` does on strings. -/
def pyStrip (cs : List Char) : List Char :=
  ((cs.dropWhile isPySpace).reverse.dropWhile isPySpace).reverse

/-- Parse a nonempty all-digit character list as a natural number. -/
def parseDigits (cs : List Char) : Option ℕ :=
  if cs = [] then none
  else cs.foldl
    (fun acc c =>
      match acc with
      | none => none
      | some n => if c.isDigit then some (n * 10 + (c.toNat - 48)) else none)
    (some 0)

/-- Model of Python `int(s)` on decimal string literals: whitespace is
stripped, one optional sign is allowed, then a nonempty digit run; anything
else raises `ValueError`, modelled as `none`. (Digit-group underscores,
accepted by Python, are not modelled; no claim depends on them.) -/
def parsePyInt (s : String) : Option ℤ :=
  match pyStrip s.toList with
  | '-' :: rest => (parseDigits rest).map (fun n => -(n : ℤ))
  | '+' :: rest => (parseDigits rest).map (fun n => (n : ℤ))
  | cs => (parseDigits cs).map (fun n => (n : ℤ))

/-- Normalisation of one slice bound, as CPython does for `list[i:j]` with
step 1: a negative bound counts from the end (clamped to 0), a non-negative
bound is clamped to the length. -/
def pySliceIdx (n : ℕ) (i : ℤ) : ℕ :=
  if i < 0 then ((n : ℤ) + i).toNat else min i.toNat n

/-- Python list slice `xs[i:j]` (step 1): the elements from the normalised
start (inclusive) to the normalised stop (exclusive). -/
def pySlice {α : Type} (xs : List α) (i j : ℤ) : List α :=
  (xs.take (pySliceIdx xs.length j)).drop (pySliceIdx xs.length i)

/-- Response shape `{"cursor": ..., "feed": [...]}` built by `build_feed`
(feed.py lines 659-662) and returned by `handler` (lines 757-760). Feed items
are the dicts `{"post": uri}`; each is modelled by its `uri` string. -/
structure Page where
  cursor : String
  feed : List String
deriving DecidableEq

/-- Cursor normalisation of `handler` (feed.py lines 726-730):
`int(cursor)`, with `ValueError`/`TypeError` (absent or unparsable cursor)
mapped to 0. -/
def cursorToStart (cursor : Option String) : ℤ :=
  match cursor with
  | none => 0
  | some s => (parsePyInt s).getD 0

/-- Slice-and-next-cursor logic of `handler` (feed.py lines 748-760):
`page = feed_items[start : start + limit]`; the returned cursor is `"0"`
when `start + limit >= len(feed_items)` and `str(start + limit)` otherwise. -/
def pageOf (feed_items : List String) (start : ℤ) (limit : ℕ) : Page :=
  { cursor := if (feed_items.length : ℤ) ≤ start + limit then "0"
              else toString (start + limit),
    feed := pySlice feed_items start (start + (limit : ℤ)) }

/-- The full pagination path of `handler` on a served snapshot: cursor
normalisation followed by `pageOf` (feed.py lines 726-760). -/
def paginate (feed_items : List String) (cursor : Option String) (limit : ℕ) : Page :=
  pageOf feed_items (cursorToStart cursor) limit

/-- Hydrated post, the relevant projection of the Bluesky post JSON returned
by `fetch_full_post`: `author` is `post["author"]["did"]` (`none` when the
author object or its did is absent), `text` is `record.get("text", "")`,
`createdAt` is `record.get("createdAt")`, and the four engagement counters
default to 0. -/
structure FullPost where
  author : Option String
  text : String
  createdAt : Option String
  likeCount : ℕ
  replyCount : ℕ
  repostCount : ℕ
  quoteCount : ℕ
deriving DecidableEq

/-- Python substring test `needle in hay`. -/
def strContains (hay needle : String) : Bool :=
  hay.toList.tails.any (fun t => needle.toList.isPrefixOf t)

/-- Model of `should_block_post` (feed.py lines 419-434): block when the
author did is in the blocked set, or the lower-cased text contains a banned
keyword (keywords are stored lower-cased by `extract_filters`). -/
def should_block_post (full_post : FullPost) (blocked_dids banned_keywords : List String) : Bool :=
  (match full_post.author with
   | some did => blocked_dids.contains did
   | none => false)
  || banned_keywords.any (fun kw => strContains full_post.text.toLower kw)

/-- Lookup in the per-author counter map, with `defaultdict(int)` default 0. -/
def getCount : List (String × ℕ) → String → ℕ
  | [], _ => 0
  | (k, v) :: rest, d => if k = d then v else getCount rest d

/-- Increment of a `defaultdict(int)` counter: `author_counts[did] += 1`. -/
def bumpCount : List (String × ℕ) → String → List (String × ℕ)
  | [], d => [(d, 1)]
  | (k, v) :: rest, d => if k = d then (k, v + 1) :: rest else (k, v) :: bumpCount rest d

/-- Per-candidate admission decision of the `build_feed` filtering loop
(feed.py lines 611-632): reject on `should_block_post`; reject on a missing
or empty `createdAt`; reject when `datetime.fromisoformat` (modelled by the
abstract `parse`, applied after the code's `"Z" → "+00:00"` replacement)
fails; reject when `now - post_time > MAX_AGE_SECONDS`; finally, when the
post carries a truthy author did, reject if that author already has
`MAX_PER_AUTHOR` admitted posts, else increment its counter. Returns the
parsed `post_time` on admission together with the updated counters. -/
def processPost (parse : String → Option ℚ) (blocked_dids banned_keywords : List String)
    (full_post : FullPost) (now : ℚ) (author_counts : List (String × ℕ)) :
    Option ℚ × List (String × ℕ) :=
  if should_block_post full_post blocked_dids banned_keywords then (none, author_counts)
  else
    match full_post.createdAt with
    | none => (none, author_counts)
    | some created_at_str =>
      if created_at_str = "" then (none, author_counts)
      else
        match parse (created_at_str.replace "Z" "+00:00") with
        | none => (none, author_counts)
        | some post_time =>
          if MAX_AGE_SECONDS < now - post_time then (none, author_counts)
          else
            match full_post.author with
            | none => (some post_time, author_counts)
            | some did =>
              if did = "" then (some post_time, author_counts)
              else if MAX_PER_AUTHOR ≤ getCount author_counts did then (none, author_counts)
              else (some post_time, bumpCount author_counts did)

/-- Entry appended by the build loop (feed.py lines 641-645):
`{"uri": p["uri"], "timestamp": post_time, "rank_score": rank_score}`.
The `post_author` field is ghost provenance (the admitted post's author did,
not stored by the code) used only to state per-author properties. -/
structure RankedEntry where
  uri : String
  timestamp : ℚ
  rank_score : ℚ
  post_author : Option String
deriving DecidableEq

/-- The `for p, full_post in zip(collected, full_posts)` loop of `build_feed`
(feed.py lines 611-648). `clock i` is the value `datetime.now(...).timestamp()`
reads at iteration `i` (the code re-reads the clock per iteration); `rank`
abstracts `compute_ranking_score`, whose value is stored but never consulted
by the admission logic. The loop breaks once `FEED_LIMIT` posts are kept. -/
def buildLoop (parse : String → Option ℚ) (blocked_dids banned_keywords : List String)
    (clock : ℕ → ℚ) (rank : FullPost → ℚ → ℚ → ℚ) :
    List (String × FullPost) → ℕ → List (String × ℕ) → List RankedEntry → List RankedEntry
  | [], _, _, acc => acc
  | (uri, full_post) :: rest, i, author_counts, acc =>
    match processPost parse blocked_dids banned_keywords full_post (clock i) author_counts with
    | (none, counts') => buildLoop parse blocked_dids banned_keywords clock rank rest (i + 1) counts' acc
    | (some post_time, counts') =>
      let e : RankedEntry :=
        ⟨uri, post_time, rank full_post post_time (clock i), full_post.author⟩
      if FEED_LIMIT ≤ (acc ++ [e]).length then acc ++ [e]
      else buildLoop parse blocked_dids banned_keywords clock rank rest (i + 1) counts' (acc ++ [e])

/-- Comparison used by `filtered_posts.sort(key=lambda x: (x["rank_score"],
x["timestamp"]), reverse=True)` (feed.py line 651): `a` may precede `b`
exactly when the key of `a` is lexicographically at least the key of `b`. -/
def entryGe (a b : RankedEntry) : Bool :=
  decide (b.rank_score < a.rank_score ∨
    (b.rank_score = a.rank_score ∧ b.timestamp ≤ a.timestamp))

/-- Entries of the built feed result (feed.py lines 608-661): the filtering
loop started with empty build-local counters, then the stable descending
sort by `(rank_score, timestamp)`, then `filtered_posts[:FEED_LIMIT]`. -/
def build_feed_entries (parse : String → Option ℚ) (blocked_dids banned_keywords : List String)
    (clock : ℕ → ℚ) (rank : FullPost → ℚ → ℚ → ℚ)
    (pairs : List (String × FullPost)) : List RankedEntry :=
  let filtered_posts := buildLoop parse blocked_dids banned_keywords clock rank pairs 0 [] []
  (filtered_posts.mergeSort entryGe).take FEED_LIMIT

/-- Number of entries in `l` whose originating post carried author `did`. -/
def countAuthor (did : String) (l : List RankedEntry) : ℕ :=
  (l.filter (fun e => e.post_author = some did)).length

/-- One `FeedSource` row as read by `compute_blueprint_hash` (feed.py lines
192-209): its `source_type`, `identifier` and `weight` columns. -/
structure FeedSourceRow where
  source_type : String
  identifier : String
  weight : ℚ
deriving DecidableEq

/-- Canonical blueprint representation built by `compute_blueprint_hash`
(feed.py lines 200-214): the `(type, identifier, weight)` triples of the
feed's sources, in the order delivered by the query's
`order_by(source_type, identifier)`, together with the feed's ranking
weights (of an arbitrary type `W`, the parsed JSON value). -/
def blueprint_data {W : Type} (sources : List FeedSourceRow) (ranking_weights : W) :
    List (String × String × ℚ) × W :=
  (sources.map (fun src => (src.source_type, src.identifier, src.weight)), ranking_weights)

/-- Model of `compute_blueprint_hash` (feed.py lines 189-217): the SHA-256
of the sorted-keys JSON dump of the blueprint. JSON dumping is injective on
this data shape, and SHA-256 is deterministic; the composition is modelled
as an arbitrary function `hash` of the canonical blueprint data, taken
injective where a claim needs collision-freedom. -/
def compute_blueprint_hash {W H : Type} (hash : List (String × String × ℚ) × W → H)
    (sources : List FeedSourceRow) (ranking_weights : W) : H :=
  hash (blueprint_data sources ranking_weights)

/-- Cache record stored by `set_cache_to_api` and returned by
`get_cache_from_api` (feed.py lines 667-678, 684): the built feed
(`none` models an absent or falsy `feed` key), the build wall-clock
timestamp, the oldest admitted post time (absent for legacy or empty
snapshots), and the blueprint hash (`none` for legacy entries). -/
structure CacheData (H : Type) where
  feed : Option Page
  timestamp : ℚ
  oldest_timestamp : Option ℚ
  blueprint_hash : Option H
deriving DecidableEq

/-- Model of `serve_from_cache` (feed.py lines 682-723). `bp` is the
recomputed current blueprint hash; `cached` the store read (with `none`
covering both an absent entry and a failed read); `hydrate` models
`fetch_full_post` (with `none` for the falsy empty dict); `parse` models
`datetime.fromisoformat`. Returns the cached feed, or `none` when the
snapshot is absent, fingerprint-mismatched, empty, or stale. -/
def serve_from_cache {H : Type} [DecidableEq H] (bp : H) (now : ℚ)
    (parse : String → Option ℚ) (hydrate : String → Option FullPost)
    (cached : Option (CacheData H)) : Option Page :=
  match cached with
  | none => none
  | some cd =>
    if cd.blueprint_hash ≠ some bp then none
    else
      match cd.feed with
      | none => none
      | some cached_feed =>
        if cached_feed.feed.isEmpty then none
        else
          match cd.oldest_timestamp with
          | some oldest_timestamp =>
            if MAX_AGE_SECONDS < now - oldest_timestamp then none else some cached_feed
          | none =>
            match cached_feed.feed.getLast? with
            | none => some cached_feed
            | some oldest_uri =>
              match hydrate oldest_uri with
              | none => some cached_feed
              | some oldest_full =>
                match oldest_full.createdAt with
                | none => some cached_feed
                | some created_at_str =>
                  match parse (created_at_str.replace "Z" "+00:00") with
                  | none => none
                  | some oldest_time =>
                    if MAX_AGE_SECONDS < now - oldest_time then none else some cached_feed

/-- Environment of one `handler` invocation: the recomputed blueprint hash,
the wall clock, the timestamp parser, the hydration collaborator, the
`(uri, timestamp)` list the build pipeline would admit (already ranked, as
`filtered_posts` after the sort), whether the cache write succeeds, and
whether another build is already in progress for this feed. -/
structure BuildCtx (H : Type) where
  bp : H
  now : ℚ
  parse : String → Option ℚ
  hydrate : String → Option FullPost
  buildPosts : List (String × ℚ)
  writeOk : Bool
  inProgress : Bool

/-- Result formatting and cache write of `build_feed` (feed.py lines
653-680): the Bluesky-shaped result `{"cursor": "0", "feed": [...]}` capped
at `FEED_LIMIT`, the `oldest_timestamp` as `int(min(...))` over the admitted
timestamps (absent when none were admitted), and the current blueprint hash;
a failed write (non-fatal, feed.py lines 118-120) leaves the store as it
was. -/
def build_feed_write {H : Type} (ctx : BuildCtx H) (store : Option (CacheData H)) :
    Page × Option (CacheData H) :=
  let f : Page := { cursor := "0", feed := (ctx.buildPosts.take FEED_LIMIT).map Prod.fst }
  let oldest : Option ℚ := (ctx.buildPosts.map Prod.snd).min?.map (fun t => ((⌊t⌋ : ℤ) : ℚ))
  let cd : CacheData H :=
    { feed := some f, timestamp := ctx.now, oldest_timestamp := oldest,
      blueprint_hash := some ctx.bp }
  (f, if ctx.writeOk then some cd else store)

/-- Model of `maybe_build_feed` as invoked synchronously by `handler`
(feed.py lines 515-527, 737): a no-op returning `None` when a build is
already in progress, otherwise one run of `build_feed`. -/
def maybe_build_run {H : Type} (ctx : BuildCtx H) (store : Option (CacheData H)) :
    Option Page × Option (CacheData H) :=
  if ctx.inProgress then (none, store)
  else
    let (f, store') := build_feed_write ctx store
    (some f, store')

/-- Outcome of one `handler` call: the value returned to the caller (or the
uncaught exception it raises), the resulting cache store, and a ghost flag
recording whether the synchronous rebuild path ran. -/
structure HandlerOut (H : Type) where
  result : Except String Page
  store : Option (CacheData H)
  built : Bool

/-- Model of `handler` (feed.py lines 725-760). The cursor is normalised to
an integer; the cache is consulted; on a miss the feed is rebuilt
synchronously and the cache consulted again — the code then calls
`cached.get("feed", [])` without re-checking, which raises
`AttributeError` when the second lookup still returned `None`. On a hit the
snapshot is sliced (the possible background rebuild scheduled for a stale
hit does not affect the returned page and is not modelled). -/
def handler {H : Type} [DecidableEq H] (ctx : BuildCtx H) (store : Option (CacheData H))
    (cursor : Option String) (limit : ℕ) : HandlerOut H :=
  let start := cursorToStart cursor
  match serve_from_cache ctx.bp ctx.now ctx.parse ctx.hydrate store with
  | none =>
    let store' := (maybe_build_run ctx store).2
    match serve_from_cache ctx.bp ctx.now ctx.parse ctx.hydrate store' with
    | none => ⟨Except.error "AttributeError: NoneType object has no attribute get", store', true⟩
    | some cached => ⟨Except.ok (pageOf cached.feed start limit), store', true⟩
  | some cached => ⟨Except.ok (pageOf cached.feed start limit), store, false⟩

/-- State of one feed's build guard (`make_handler`, feed.py lines 511-513):
the `build_in_progress` flag, plus a ghost counter of builds started. -/
structure BuildGuard where
  build_in_progress : Bool
  builds : ℕ
deriving DecidableEq

/-- The guarded entry of `maybe_build_feed` (feed.py lines 518-521),
atomic under `build_lock`: observing `build_in_progress` makes the call
return `None` immediately (`false` here); otherwise the flag is set and a
build starts. -/
def tryStartBuild (s : BuildGuard) : Bool × BuildGuard :=
  if s.build_in_progress then (false, s)
  else (true, { build_in_progress := true, builds := s.builds + 1 })

/-- The `finally` block of `maybe_build_feed` (feed.py lines 525-527):
the running build completes and clears the flag. -/
def finishBuild (s : BuildGuard) : BuildGuard :=
  { s with build_in_progress := false }

/-- A sequence of `n` build triggers, each serialised through the lock. -/
def triggers : ℕ → BuildGuard → List Bool × BuildGuard
  | 0, s => ([], s)
  | n + 1, s =>
    let (r, s') := tryStartBuild s
    let (rs, s'') := triggers n s'
    (r :: rs, s'')

/-- A topic preference `{"name": identifier, "weight": weight}`
(feed.py line 552). -/
structure TopicPref where
  name : String
  weight : ℝ

/-- Ranking-weights dict as consumed by `compute_ranking_score` (feed.py
lines 492-494): each key may be absent, in which case `.get(key, 0.5)`
substitutes one half. -/
structure RankingWeights where
  relevance : Option ℝ
  popularity : Option ℝ
  recency : Option ℝ

/-- Effective relevance weight: `ranking_weights.get("relevance", 0.5)`. -/
noncomputable def wRelevance (w : RankingWeights) : ℝ := w.relevance.getD (1 / 2)

/-- Effective popularity weight: `ranking_weights.get("popularity", 0.5)`. -/
noncomputable def wPopularity (w : RankingWeights) : ℝ := w.popularity.getD (1 / 2)

/-- Effective recency weight: `ranking_weights.get("recency", 0.5)`. -/
noncomputable def wRecency (w : RankingWeights) : ℝ := w.recency.getD (1 / 2)

/-- Weight normalisation of `compute_ranking_score` (feed.py lines 496-504):
divide by the total when it is positive, else fall back to equal thirds. -/
noncomputable def normalizeWeights (w_relevance w_popularity w_recency : ℝ) : ℝ × ℝ × ℝ :=
  let total_weight := w_relevance + w_popularity + w_recency
  if 0 < total_weight then
    (w_relevance / total_weight, w_popularity / total_weight, w_recency / total_weight)
  else (1 / 3, 1 / 3, 1 / 3)

/-- Model of `compute_relevance_score` (feed.py lines 447-465): 1.0 for a
truthy author did in the preferred-profile set, plus the weight of every
topic whose lower-cased name occurs in the (nonempty) lower-cased text,
capped at 1.0. -/
noncomputable def compute_relevance_score (full_post : FullPost)
    (topic_preferences : List TopicPref) (profile_preferences : List String) : ℝ :=
  let base : ℝ :=
    match full_post.author with
    | some did => if did ≠ "" ∧ profile_preferences.contains did then 1 else 0
    | none => 0
  let text := full_post.text.toLower
  let score :=
    if text = "" then base
    else topic_preferences.foldl
      (fun acc tp => if strContains text tp.name.toLower then acc + tp.weight else acc) base
  min score 1

/-- Popularity term of `compute_ranking_score` (feed.py lines 476-484):
`min(log1p(total_engagement) / 5.0, 1.0)`. -/
noncomputable def popularity_score (total_engagement : ℕ) : ℝ :=
  min (Real.log (1 + (total_engagement : ℝ)) / 5) 1

/-- Recency term of `compute_ranking_score` (feed.py lines 486-489):
exponential decay of the post age, clamped into `[0, 1]`. -/
noncomputable def recency_score (age_seconds : ℝ) : ℝ :=
  max 0 (min (Real.exp (-age_seconds / ((MAX_AGE_SECONDS : ℝ) / 3))) 1)

/-- Model of `compute_ranking_score` (feed.py lines 467-508): the weighted
combination of relevance, log-scaled engagement popularity, and
exponentially decayed recency, under the normalised ranking weights. -/
noncomputable def compute_ranking_score (full_post : FullPost) (post_time now : ℝ)
    (ranking_weights : RankingWeights) (topic_preferences : List TopicPref)
    (profile_preferences : List String) : ℝ :=
  let relevance := compute_relevance_score full_post topic_preferences profile_preferences
  let total_engagement : ℕ := full_post.likeCount + full_post.replyCount * 2 +
    full_post.repostCount * 3 + full_post.quoteCount * 2
  let popularity := popularity_score total_engagement
  let age_seconds := now - post_time
  let recency := recency_score age_seconds
  let w := normalizeWeights (wRelevance ranking_weights) (wPopularity ranking_weights)
    (wRecency ranking_weights)
  relevance * w.1 + popularity * w.2.1 + recency * w.2.2

/-! Helper lemmas. -/

theorem pySlice_nonneg {α : Type} (xs : List α) (c : ℤ) (L : ℕ) (hc : 0 ≤ c) :
    pySlice xs c (c + (L : ℤ)) = (xs.drop c.toNat).take L := by
  unfold pySlice pySliceIdx
  have h1 : ¬ c < 0 := not_lt.2 hc
  have h2 : ¬ c + (L : ℤ) < 0 := by omega
  have h3 : (c + (L : ℤ)).toNat = c.toNat + L := by omega
  rw [if_neg h1, if_neg h2, h3, List.drop_take]
  rcases le_or_lt c.toNat xs.length with h | h
  · rw [min_eq_left h, List.take_eq_take]
    simp only [List.length_drop]
    omega
  · rw [min_eq_right h.le, List.drop_eq_nil_of_le, List.drop_eq_nil_of_le (by omega),
      List.take_nil, List.take_nil]
    simp

theorem parsePyInt_zero : parsePyInt "0" = some 0 := rfl

/-! Claim theorems. -/

/-- Claim C1: the only caller-visible failure mode, a feed whose build produces no
entries, does NOT resolve to an empty-but-valid page: `serve_from_cache`
refuses the empty snapshot even right after the rebuild, and `handler` then
calls `.get` on `None`, raising `AttributeError` to the caller instead of
returning `items: []`, `nextCursor: "0"`. Evaluated at a concrete failing
input: empty cache, a build admitting no posts, no concurrent build. -/
theorem empty_build_read_raises :
    (@handler ℕ _ ⟨0, 0, fun _ => none, fun _ => none, [], true, false⟩ none none 10).result
      = Except.error "AttributeError: NoneType object has no attribute get" := rfl

/-- Claim C2: on a served snapshot, a cursor parsing as a non-negative integer `c`
slices `entries[c : c+L]` (equal to drop-then-take for non-negative `c`), the
next cursor is `"0"` exactly when `c + L` reaches the length and `str(c+L)`
otherwise; an unparsable cursor behaves as `"0"`; with 25 entries, cursor
`"20"` and limit 10 give 5 items and next cursor `"0"`, and cursor `"abc"`
behaves identically to cursor `"0"`. -/
theorem pagination_spec :
    (∀ (entries : List String) (s : String) (c : ℤ) (L : ℕ),
        parsePyInt s = some c → 0 ≤ c →
        paginate entries (some s) L =
          { cursor := if (entries.length : ℤ) ≤ c + L then "0" else toString (c + (L : ℤ)),
            feed := (entries.drop c.toNat).take L })
    ∧ (∀ (entries : List String) (s : String) (L : ℕ),
        parsePyInt s = none →
        paginate entries (some s) L = paginate entries (some "0") L)
    ∧ ((paginate (List.replicate 25 "p") (some "20") 10).feed.length = 5
        ∧ (paginate (List.replicate 25 "p") (some "20") 10).cursor = "0"
        ∧ paginate (List.replicate 25 "p") (some "abc") 10
            = paginate (List.replicate 25 "p") (some "0") 10) := by
  refine ⟨?_, ?_, ?_⟩
  · intro entries s c L hs hc
    simp only [paginate, cursorToStart, hs, Option.getD_some, pageOf,
      pySlice_nonneg entries c L hc]
  · intro entries s L hs
    simp only [paginate, cursorToStart, hs, Option.getD_none, parsePyInt_zero,
      Option.getD_some]
  · exact ⟨by decide, by decide, by
      simp only [paginate, cursorToStart, show parsePyInt "abc" = none from rfl,
        parsePyInt_zero, Option.getD_none, Option.getD_some]⟩

/-- Witness for C2 at a concrete input: three entries, cursor `"1"`,
limit 2. -/
theorem pagination_spec_witness :
    paginate ["a", "b", "c"] (some "1") 2 = { cursor := "0", feed := ["b", "c"] } := by
  have h := pagination_spec.1 ["a", "b", "c"] "1" 1 2 rfl (by norm_num)
  simpa using h

/-- Claim C9: a cursor parsing as a negative integer `c` is neither treated as 0
nor rejected: `c` is the slice start directly, so the items are
`entries[c : c+L]` under Python semantics — the start counts from the end of
the list (`(n + c).toNat`) — and the next cursor is `"0"` exactly when
`c + limit >= n`. Concretely, with 25 entries, cursor `"-5"` and limit 10
the slice `[-5:5]` is empty and the next cursor is `"5"`, differing from
cursor `"0"`. -/
theorem negative_cursor_spec :
    (∀ (entries : List String) (s : String) (c : ℤ) (L : ℕ),
        parsePyInt s = some c → c < 0 →
        paginate entries (some s) L =
          { cursor := if (entries.length : ℤ) ≤ c + L then "0" else toString (c + (L : ℤ)),
            feed := (entries.take (pySliceIdx entries.length (c + L))).drop
              (((entries.length : ℤ) + c).toNat) })
    ∧ parsePyInt "-5" = some (-5)
    ∧ (paginate (List.replicate 25 "p") (some "-5") 10).feed = []
    ∧ (paginate (List.replicate 25 "p") (some "-5") 10).cursor = "5"
    ∧ paginate (List.replicate 25 "p") (some "-5") 10
        ≠ paginate (List.replicate 25 "p") (some "0") 10 := by
  refine ⟨?_, by decide, by decide, by decide, by decide⟩
  intro entries s c L hs hc
  simp only [paginate, cursorToStart, hs, Option.getD_some, pageOf, pySlice]
  congr 1
  unfold pySliceIdx
  rw [if_pos hc]

/-- Witness for C9 at a concrete input: one entry, cursor `"-1"`, limit 1. -/
theorem negative_cursor_spec_witness :
    paginate ["a"] (some "-1") 1 = { cursor := "0", feed := [] } := by
  have h := negative_cursor_spec.1 ["a"] "-1" (-1) 1 rfl (by norm_num)
  simpa using h

theorem serve_mismatch_none {H : Type} [DecidableEq H] (bp : H) (now : ℚ)
    (parse : String → Option ℚ) (hydrate : String → Option FullPost)
    (cd : CacheData H) (hne : cd.blueprint_hash ≠ some bp) :
    serve_from_cache bp now parse hydrate (some cd) = none := by
  unfold serve_from_cache
  exact if_pos hne

/-- Claim C3: with the fingerprint modelled as any injective function of the
canonical blueprint data (the JSON dump is injective on that data and
SHA-256 is collision-resistant by contract), changing any source's weight or
adding/removing a source changes the computed fingerprint, and a read whose
recomputed fingerprint differs from the stored one yields nothing from the
cache, so that read takes the synchronous rebuild path. -/
theorem blueprint_invalidation {H W : Type} [DecidableEq H]
    (hash : List (String × String × ℚ) × W → H) (hinj : Function.Injective hash)
    (sources : List FeedSourceRow) (ranking_weights : W) :
    (∀ (k : ℕ) (hk : k < sources.length) (w' : ℚ),
        w' ≠ (sources.get ⟨k, hk⟩).weight →
        compute_blueprint_hash hash
            (sources.set k { sources.get ⟨k, hk⟩ with weight := w' }) ranking_weights
          ≠ compute_blueprint_hash hash sources ranking_weights)
    ∧ (∀ sources' : List FeedSourceRow, sources'.length ≠ sources.length →
        compute_blueprint_hash hash sources' ranking_weights
          ≠ compute_blueprint_hash hash sources ranking_weights)
    ∧ (∀ (now : ℚ) (parse : String → Option ℚ) (hydrate : String → Option FullPost)
        (cd : CacheData H) (bp : H), cd.blueprint_hash ≠ some bp →
        serve_from_cache bp now parse hydrate (some cd) = none)
    ∧ (∀ (ctx : BuildCtx H) (cd : CacheData H) (cursor : Option String) (limit : ℕ),
        cd.blueprint_hash ≠ some ctx.bp →
        (handler ctx (some cd) cursor limit).built = true) := by
  refine ⟨?_, ?_, fun now parse hydrate cd bp h => serve_mismatch_none bp now parse hydrate cd h, ?_⟩
  · intro k hk w' hw heq
    have hdata := hinj heq
    have hmap := congrArg Prod.fst hdata
    simp only [blueprint_data] at hmap
    have hk' : k < (sources.set k { sources.get ⟨k, hk⟩ with weight := w' }).length := by
      simpa using hk
    have := congrArg (fun l => l[k]?) hmap
    simp only [List.getElem?_map, List.getElem?_set_self, List.getElem?_eq_getElem hk,
      List.getElem?_eq_getElem hk', Option.map_some] at this
    rw [List.getElem_set_self] at this
    exact hw (by simpa using congrArg (fun p => p.2.2) (Option.some.inj this))
  · intro sources' hlen heq
    have hdata := hinj heq
    have hmap := congrArg Prod.fst hdata
    simp only [blueprint_data] at hmap
    exact hlen (by simpa using congrArg List.length hmap)
  · intro ctx cd cursor limit h
    simp only [handler]
    rw [serve_mismatch_none ctx.bp ctx.now ctx.parse ctx.hydrate cd h]
    cases serve_from_cache ctx.bp ctx.now ctx.parse ctx.hydrate
        (maybe_build_run ctx (some cd)).2 <;> rfl

/-- Witness for C3 at a concrete blueprint with `hash = id`: changing the
single source's weight from 0 to 1 changes the fingerprint. -/
theorem blueprint_invalidation_witness :
    compute_blueprint_hash (W := Unit) id [⟨"topic_preference", "ai", 1⟩] ()
      ≠ compute_blueprint_hash id [⟨"topic_preference", "ai", 0⟩] () := by
  have h := (blueprint_invalidation (W := Unit) id Function.injective_id
      [⟨"topic_preference", "ai", 0⟩] ()).1 0 (by norm_num) 1 (by norm_num)
  simpa using h

theorem triggers_inProgress (n : ℕ) :
    ∀ s : BuildGuard, s.build_in_progress = true →
      triggers n s = (List.replicate n false, s) := by
  induction n with
  | zero => intro s h; simp [triggers]
  | succ n ih =>
    intro s h
    simp [triggers, tryStartBuild, h, ih s h, List.replicate]

/-- Claim C4: once a build is in progress for a feed, any number of further build
triggers are no-ops (each returns `None` immediately and leaves the guard
state unchanged), and a burst starting from an idle guard runs exactly one
build: the first trigger starts it, the `n` triggers issued while it runs
all observe the flag and coalesce, and after completion exactly one build
has executed. -/
theorem single_flight_build_guard (n : ℕ) (s : BuildGuard)
    (h : s.build_in_progress = true) :
    triggers n s = (List.replicate n false, s)
    ∧ (∀ s0 : BuildGuard, s0.build_in_progress = false →
        (tryStartBuild s0).1 = true
        ∧ (tryStartBuild s0).2.builds = s0.builds + 1
        ∧ triggers n (tryStartBuild s0).2 = (List.replicate n false, (tryStartBuild s0).2)
        ∧ (finishBuild (triggers n (tryStartBuild s0).2).2).builds = s0.builds + 1) := by
  refine ⟨triggers_inProgress n s h, fun s0 h0 => ?_⟩
  have hstart : tryStartBuild s0 = (true, { build_in_progress := true, builds := s0.builds + 1 }) := by
    simp [tryStartBuild, h0]
  rw [hstart]
  refine ⟨rfl, rfl, triggers_inProgress n _ rfl, ?_⟩
  rw [triggers_inProgress n _ rfl]
  rfl

/-- Witness for C4: three triggers against a guard with a build in
progress. -/
theorem single_flight_build_guard_witness :
    triggers 3 ⟨true, 1⟩ = ([false, false, false], ⟨true, 1⟩) := by
  have h := (single_flight_build_guard 3 ⟨true, 1⟩ rfl).1
  simpa using h

theorem normalizeWeights_props (a b c : ℝ) (ha : 0 ≤ a) (hb : 0 ≤ b) (hc : 0 ≤ c) :
    0 ≤ (normalizeWeights a b c).1 ∧ 0 ≤ (normalizeWeights a b c).2.1
    ∧ 0 ≤ (normalizeWeights a b c).2.2
    ∧ (normalizeWeights a b c).1 + (normalizeWeights a b c).2.1
        + (normalizeWeights a b c).2.2 = 1 := by
  simp only [normalizeWeights]
  split
  case isTrue h =>
    refine ⟨div_nonneg ha h.le, div_nonneg hb h.le, div_nonneg hc h.le, ?_⟩
    field_simp
  case isFalse h => norm_num

/-- Claim C5: for non-negative, not-all-zero ranking weights the three normalised
weights used by `compute_ranking_score` sum to exactly 1 (the model computes
over `ℝ`, so the floating-point tolerance of the claim is exact here), and
the all-zero triple falls back to exactly one third each. -/
theorem weight_normalization (a b c : ℝ) (ha : 0 ≤ a) (hb : 0 ≤ b) (hc : 0 ≤ c)
    (hnz : ¬(a = 0 ∧ b = 0 ∧ c = 0)) :
    ((normalizeWeights a b c).1 + (normalizeWeights a b c).2.1
        + (normalizeWeights a b c).2.2 = 1)
    ∧ normalizeWeights 0 0 0 = (1 / 3, 1 / 3, 1 / 3) := by
  refine ⟨(normalizeWeights_props a b c ha hb hc).2.2.2, ?_⟩
  norm_num [normalizeWeights]

/-- Witness for C5 at the concrete triple (1, 0, 0). -/
theorem weight_normalization_witness :
    ((normalizeWeights 1 0 0).1 + (normalizeWeights 1 0 0).2.1
        + (normalizeWeights 1 0 0).2.2 = 1)
    ∧ normalizeWeights 0 0 0 = (1 / 3, 1 / 3, 1 / 3) :=
  weight_normalization 1 0 0 (by norm_num) le_rfl le_rfl (by norm_num)

theorem getCount_bump_self (m : List (String × ℕ)) (d : String) :
    getCount (bumpCount m d) d = getCount m d + 1 := by
  induction m with
  | nil => simp [getCount, bumpCount]
  | cons kv rest ih =>
    obtain ⟨k, v⟩ := kv
    by_cases h : k = d
    · subst h; simp [getCount, bumpCount]
    · simp [getCount, bumpCount, h, ih]

theorem getCount_bump_ne (m : List (String × ℕ)) (d e : String) (h : d ≠ e) :
    getCount (bumpCount m d) e = getCount m e := by
  induction m with
  | nil => simp [getCount, bumpCount, h]
  | cons kv rest ih =>
    obtain ⟨k, v⟩ := kv
    by_cases hk : k = d
    · subst hk; simp [getCount, bumpCount, h]
    · simp [getCount, bumpCount, hk, ih]

theorem countAuthor_append (did : String) (l : List RankedEntry) (e : RankedEntry) :
    countAuthor did (l ++ [e])
      = countAuthor did l + (if e.post_author = some did then 1 else 0) := by
  simp only [countAuthor, List.filter_append, List.length_append]
  congr 1
  by_cases h : e.post_author = some did <;> simp [h]

theorem processPost_none_snd (parse : String → Option ℚ) (blocked banned : List String)
    (fp : FullPost) (now : ℚ) (counts counts' : List (String × ℕ))
    (h : processPost parse blocked banned fp now counts = (none, counts')) :
    counts' = counts := by
  unfold processPost at h
  repeat' split at h
  all_goals simp_all

theorem processPost_some_author (parse : String → Option ℚ) (blocked banned : List String)
    (fp : FullPost) (now : ℚ) (counts counts' : List (String × ℕ)) (t : ℚ)
    (h : processPost parse blocked banned fp now counts = (some t, counts')) :
    ((fp.author = none ∨ fp.author = some "") ∧ counts' = counts)
    ∨ (∃ did, fp.author = some did ∧ did ≠ ""
        ∧ getCount counts did < MAX_PER_AUTHOR ∧ counts' = bumpCount counts did) := by
  unfold processPost at h
  repeat' split at h
  all_goals simp_all

theorem processPost_some_time (parse : String → Option ℚ) (blocked banned : List String)
    (fp : FullPost) (now : ℚ) (counts counts' : List (String × ℕ)) (t : ℚ)
    (h : processPost parse blocked banned fp now counts = (some t, counts')) :
    ∃ s, fp.createdAt = some s ∧ parse (s.replace "Z" "+00:00") = some t
      ∧ now - t ≤ MAX_AGE_SECONDS := by
  unfold processPost at h
  repeat' split at h
  all_goals simp_all

theorem buildLoop_author_cap (parse : String → Option ℚ) (blocked banned : List String)
    (clock : ℕ → ℚ) (rank : FullPost → ℚ → ℚ → ℚ) (did : String) (hdid : did ≠ "") :
    ∀ (l : List (String × FullPost)) (i : ℕ) (counts : List (String × ℕ))
      (acc : List RankedEntry),
      countAuthor did acc ≤ getCount counts did →
      getCount counts did ≤ MAX_PER_AUTHOR →
      countAuthor did (buildLoop parse blocked banned clock rank l i counts acc)
        ≤ MAX_PER_AUTHOR := by
  intro l
  induction l with
  | nil =>
    intro i counts acc h1 h2
    simpa [buildLoop] using h1.trans h2
  | cons hd tl ih =>
    obtain ⟨uri, fp⟩ := hd
    intro i counts acc h1 h2
    rcases hpp : processPost parse blocked banned fp (clock i) counts with ⟨_ | t, counts'⟩
    · have hc := processPost_none_snd parse blocked banned fp (clock i) counts counts' hpp
      subst hc
      simp only [buildLoop, hpp]
      exact ih (i + 1) counts' acc h1 h2
    · simp only [buildLoop, hpp]
      rcases processPost_some_author parse blocked banned fp (clock i) counts counts' t hpp
        with ⟨hauth, hc⟩ | ⟨did', hauth, hne, hlt, hc⟩
      · subst hc
        have hcount : countAuthor did (acc ++ [⟨uri, t, rank fp t (clock i), fp.author⟩])
            = countAuthor did acc := by
          rw [countAuthor_append]
          rcases hauth with h | h <;> simp [h, Ne.symm hdid]
        split
        · rw [hcount]; exact h1.trans h2
        · exact ih (i + 1) counts' (acc ++ [_]) (by rw [hcount]; exact h1) h2
      · subst hc
        by_cases hdd : did' = did
        · rw [hdd] at hauth hlt
          rw [hdd]
          have hcount : countAuthor did (acc ++ [⟨uri, t, rank fp t (clock i), fp.author⟩])
              = countAuthor did acc + 1 := by
            rw [countAuthor_append, hauth]; simp
          split
          · rw [hcount]; omega
          · exact ih (i + 1) _ (acc ++ [_])
              (by rw [hcount, getCount_bump_self]; omega)
              (by rw [getCount_bump_self]; omega)
        · have hcount : countAuthor did (acc ++ [⟨uri, t, rank fp t (clock i), fp.author⟩])
              = countAuthor did acc := by
            rw [countAuthor_append, hauth]; simp [hdd]
          have hbump : getCount (bumpCount counts did') did = getCount counts did :=
            getCount_bump_ne counts did' did hdd
          split
          · rw [hcount]; exact h1.trans h2
          · exact ih (i + 1) _ (acc ++ [_]) (by rw [hcount, hbump]; exact h1)
              (by rw [hbump]; exact h2)

/-- Claim C7: in the built feed result no author did contributes more than
`MAX_PER_AUTHOR` entries; the counters are build-local, starting from the
empty map in every `build_feed` run (the loop here starts from `[]`). -/
theorem author_cap (parse : String → Option ℚ) (blocked banned : List String)
    (clock : ℕ → ℚ) (rank : FullPost → ℚ → ℚ → ℚ)
    (pairs : List (String × FullPost)) (did : String) (hdid : did ≠ "") :
    countAuthor did (build_feed_entries parse blocked banned clock rank pairs)
      ≤ MAX_PER_AUTHOR := by
  have h0 := buildLoop_author_cap parse blocked banned clock rank did hdid pairs 0 [] []
    (by simp [countAuthor, getCount]) (by simp [getCount])
  simp only [build_feed_entries]
  have hsub : countAuthor did
      (((buildLoop parse blocked banned clock rank pairs 0 [] []).mergeSort entryGe).take
        FEED_LIMIT)
      ≤ countAuthor did
        ((buildLoop parse blocked banned clock rank pairs 0 [] []).mergeSort entryGe) := by
    unfold countAuthor
    exact ((List.take_sublist _ _).filter _).length_le
  have hperm : countAuthor did
      ((buildLoop parse blocked banned clock rank pairs 0 [] []).mergeSort entryGe)
      = countAuthor did (buildLoop parse blocked banned clock rank pairs 0 [] []) := by
    unfold countAuthor
    exact ((List.mergeSort_perm _ entryGe).filter _).length_eq
  exact hsub.trans (hperm.le.trans h0)

/-- Witness for C7 at a concrete one-candidate build. -/
theorem author_cap_witness :
    countAuthor "did:plc:w" (build_feed_entries (fun _ => some 0) [] [] (fun _ => 0)
      (fun _ _ _ => 0) [("u", ⟨some "did:plc:w", "", some "T", 0, 0, 0, 0⟩)])
      ≤ MAX_PER_AUTHOR :=
  author_cap (fun _ => some 0) [] [] (fun _ => 0) (fun _ _ _ => 0)
    [("u", ⟨some "did:plc:w", "", some "T", 0, 0, 0, 0⟩)] "did:plc:w" (by decide)

theorem buildLoop_mem (parse : String → Option ℚ) (blocked banned : List String)
    (clock : ℕ → ℚ) (rank : FullPost → ℚ → ℚ → ℚ) :
    ∀ (l : List (String × FullPost)) (i : ℕ) (counts : List (String × ℕ))
      (acc : List RankedEntry) (e : RankedEntry),
      e ∈ buildLoop parse blocked banned clock rank l i counts acc →
      e ∈ acc ∨ ∃ (k : ℕ) (uri : String) (fp : FullPost),
        l[k]? = some (uri, fp) ∧ e.uri = uri ∧ e.post_author = fp.author
        ∧ ∃ s, fp.createdAt = some s
          ∧ parse (s.replace "Z" "+00:00") = some e.timestamp
          ∧ clock (i + k) - e.timestamp ≤ MAX_AGE_SECONDS := by
  intro l
  induction l with
  | nil =>
    intro i counts acc e he
    exact Or.inl (by simpa [buildLoop] using he)
  | cons hd tl ih =>
    obtain ⟨uri, fp⟩ := hd
    intro i counts acc e he
    rcases hpp : processPost parse blocked banned fp (clock i) counts with ⟨_ | t, counts'⟩
    · simp only [buildLoop, hpp] at he
      rcases ih (i + 1) counts' acc e he with h | ⟨k, uri', fp', hget, h2, h3, s, hs, hp, hage⟩
      · exact Or.inl h
      · refine Or.inr ⟨k + 1, uri', fp', by simpa using hget, h2, h3, s, hs, hp, ?_⟩
        have hidx : i + (k + 1) = i + 1 + k := by omega
        rw [hidx]
        exact hage
    · simp only [buildLoop, hpp] at he
      have hstep : e ∈ acc ++ [⟨uri, t, rank fp t (clock i), fp.author⟩] →
          e ∈ acc ∨ ∃ (k : ℕ) (uri' : String) (fp' : FullPost),
            ((uri, fp) :: tl)[k]? = some (uri', fp') ∧ e.uri = uri'
            ∧ e.post_author = fp'.author
            ∧ ∃ s, fp'.createdAt = some s
              ∧ parse (s.replace "Z" "+00:00") = some e.timestamp
              ∧ clock (i + k) - e.timestamp ≤ MAX_AGE_SECONDS := by
        intro hmem
        rcases List.mem_append.1 hmem with h | h
        · exact Or.inl h
        · have he' : e = ⟨uri, t, rank fp t (clock i), fp.author⟩ := by simpa using h
          subst he'
          obtain ⟨s, hs, hp, hage⟩ := processPost_some_time parse blocked banned fp
            (clock i) counts counts' t hpp
          exact Or.inr ⟨0, uri, fp, by simp, rfl, rfl, s, hs, hp, by simpa using hage⟩
      split at he
      · exact hstep he
      · rcases ih (i + 1) counts' _ e he with h | ⟨k, uri', fp', hget, h2, h3, s, hs, hp, hage⟩
        · exact hstep h
        · refine Or.inr ⟨k + 1, uri', fp', by simpa using hget, h2, h3, s, hs, hp, ?_⟩
          have hidx : i + (k + 1) = i + 1 + k := by omega
          rw [hidx]
          exact hage

/-- Claim C8: every entry of the built feed result originates from a candidate
whose `createdAt` string is present and parses, its parsed time is the
entry's timestamp, and at the iteration `k` where its admission check ran,
`clock k − timestamp ≤ MAX_AGE_SECONDS` (the code reads the clock anew at
each iteration). Candidates with a missing, unparsable or out-of-window
timestamp therefore contribute no entry. -/
theorem admitted_age_bound (parse : String → Option ℚ) (blocked banned : List String)
    (clock : ℕ → ℚ) (rank : FullPost → ℚ → ℚ → ℚ)
    (pairs : List (String × FullPost)) (e : RankedEntry)
    (he : e ∈ build_feed_entries parse blocked banned clock rank pairs) :
    ∃ (k : ℕ) (uri : String) (fp : FullPost),
      pairs[k]? = some (uri, fp) ∧ e.uri = uri
      ∧ ∃ s, fp.createdAt = some s
        ∧ parse (s.replace "Z" "+00:00") = some e.timestamp
        ∧ clock k - e.timestamp ≤ MAX_AGE_SECONDS := by
  simp only [build_feed_entries] at he
  have h1 : e ∈ buildLoop parse blocked banned clock rank pairs 0 [] [] :=
    (List.mergeSort_perm _ entryGe).subset ((List.take_sublist _ _).subset he)
  rcases buildLoop_mem parse blocked banned clock rank pairs 0 [] [] e h1
    with h | ⟨k, uri, fp, hget, h2, _h3, s, hs, hp, hage⟩
  · simp at h
  · exact ⟨k, uri, fp, hget, h2, s, hs, hp, by simpa using hage⟩

/-- Witness for C8 at a concrete one-candidate build admitting one entry. -/
theorem admitted_age_bound_witness :
    ∃ (k : ℕ) (uri : String) (fp : FullPost),
      [("u", (⟨none, "", some "T", 0, 0, 0, 0⟩ : FullPost))][k]? = some (uri, fp)
      ∧ (⟨"u", 0, 0, none⟩ : RankedEntry).uri = uri
      ∧ ∃ s, fp.createdAt = some s
        ∧ (fun _ => some (0 : ℚ)) (s.replace "Z" "+00:00")
            = some (⟨"u", 0, 0, none⟩ : RankedEntry).timestamp
        ∧ (fun _ => (0 : ℚ)) k - (⟨"u", 0, 0, none⟩ : RankedEntry).timestamp
            ≤ MAX_AGE_SECONDS :=
  admitted_age_bound (fun _ => some 0) [] [] (fun _ => 0) (fun _ _ _ => 0)
    [("u", ⟨none, "", some "T", 0, 0, 0, 0⟩)] ⟨"u", 0, 0, none⟩
    (by
      have h1 : ¬ ((48 * 60 * 60 : ℚ) < 0) := by norm_num
      simp [build_feed_entries, buildLoop, processPost, should_block_post, MAX_AGE_SECONDS,
        FEED_LIMIT, List.mergeSort_singleton, h1])

/-- Claim C10: a hydrated post whose author did is missing (or falsy) is never
counted toward any per-author cap and, when it passes the block, timestamp
and age checks, is admitted with the counters left untouched — for every
counter state, so no number of previously admitted author-less posts can
exhaust a cap against it: the `MAX_PER_AUTHOR` cap applies only to posts
carrying a truthy author did. -/
theorem authorless_uncapped (parse : String → Option ℚ) (blocked banned : List String)
    (clock : ℕ → ℚ) (rank : FullPost → ℚ → ℚ → ℚ) (uri : String) (fp : FullPost)
    (rest : List (String × FullPost)) (i : ℕ) (counts : List (String × ℕ))
    (acc : List RankedEntry)
    (hauth : fp.author = none ∨ fp.author = some "")
    (hblock : should_block_post fp blocked banned = false)
    (s : String) (hs : fp.createdAt = some s) (hsne : s ≠ "")
    (t : ℚ) (ht : parse (s.replace "Z" "+00:00") = some t)
    (hage : clock i - t ≤ MAX_AGE_SECONDS) :
    processPost parse blocked banned fp (clock i) counts = (some t, counts)
    ∧ buildLoop parse blocked banned clock rank ((uri, fp) :: rest) i counts acc
      = (if FEED_LIMIT ≤
            (acc ++ [(⟨uri, t, rank fp t (clock i), fp.author⟩ : RankedEntry)]).length
         then acc ++ [(⟨uri, t, rank fp t (clock i), fp.author⟩ : RankedEntry)]
         else buildLoop parse blocked banned clock rank rest (i + 1) counts
           (acc ++ [(⟨uri, t, rank fp t (clock i), fp.author⟩ : RankedEntry)])) := by
  have hpp : processPost parse blocked banned fp (clock i) counts = (some t, counts) := by
    have hnl := not_lt.2 hage
    rcases hauth with h | h <;>
      simp [processPost, hblock, hs, hsne, ht, hnl, h]
  exact ⟨hpp, by simp only [buildLoop, hpp]⟩

/-- Witness for C10: an author-less post admitted against a counter map in
which another author is already far over the cap, leaving it untouched. -/
theorem authorless_uncapped_witness :
    processPost (fun _ => some 0) [] [] ⟨none, "", some "T", 0, 0, 0, 0⟩ (0 : ℚ)
      [("x", 99)] = (some 0, [("x", 99)]) :=
  (authorless_uncapped (fun _ => some 0) [] [] (fun _ => 0) (fun _ _ _ => 0) "u"
    ⟨none, "", some "T", 0, 0, 0, 0⟩ [] 0 [("x", 99)] [] (Or.inl rfl)
    (by simp [should_block_post]) "T" rfl (by decide) 0 rfl
    (by norm_num [MAX_AGE_SECONDS])).1

theorem foldl_topics_nonneg (text : String) (topics : List TopicPref) :
    ∀ acc : ℝ, 0 ≤ acc → (∀ tp ∈ topics, 0 ≤ tp.weight) →
      0 ≤ topics.foldl
        (fun acc tp => if strContains text tp.name.toLower then acc + tp.weight else acc)
        acc := by
  induction topics with
  | nil => intro acc h _; simpa using h
  | cons tp tl ih =>
    intro acc h hw
    simp only [List.foldl_cons]
    apply ih
    · split
      · have := hw tp (by simp)
        linarith
      · exact h
    · intro x hx
      exact hw x (List.mem_cons_of_mem _ hx)

theorem relevance_bounds (fp : FullPost) (topics : List TopicPref) (profiles : List String)
    (hw : ∀ tp ∈ topics, 0 ≤ tp.weight) :
    0 ≤ compute_relevance_score fp topics profiles
    ∧ compute_relevance_score fp topics profiles ≤ 1 := by
  simp only [compute_relevance_score]
  refine ⟨le_min ?_ zero_le_one, min_le_right _ _⟩
  have hbase : (0 : ℝ) ≤ (match fp.author with
      | some did => if did ≠ "" ∧ profiles.contains did then (1 : ℝ) else 0
      | none => 0) := by
    rcases fp.author with _ | did
    · simp
    · simp only []
      split <;> norm_num
  split
  · exact hbase
  · exact foldl_topics_nonneg _ topics _ hbase hw

theorem popularity_bounds (n : ℕ) :
    0 ≤ popularity_score n ∧ popularity_score n ≤ 1 := by
  refine ⟨le_min (div_nonneg (Real.log_nonneg ?_) (by norm_num)) zero_le_one,
    min_le_right _ _⟩
  exact le_add_of_nonneg_right (Nat.cast_nonneg n)

theorem recency_bounds (a : ℝ) :
    0 ≤ recency_score a ∧ recency_score a ≤ 1 :=
  ⟨le_max_left _ _, max_le zero_le_one (min_le_right _ _)⟩

theorem convex_comb_unit (r p c w1 w2 w3 : ℝ)
    (hr : 0 ≤ r) (hr1 : r ≤ 1) (hp : 0 ≤ p) (hp1 : p ≤ 1) (hc : 0 ≤ c) (hc1 : c ≤ 1)
    (h1 : 0 ≤ w1) (h2 : 0 ≤ w2) (h3 : 0 ≤ w3) (hsum : w1 + w2 + w3 = 1) :
    0 ≤ r * w1 + p * w2 + c * w3 ∧ r * w1 + p * w2 + c * w3 ≤ 1 := by
  constructor
  · positivity
  · have e1 := mul_le_of_le_one_left h1 hr1
    have e2 := mul_le_of_le_one_left h2 hp1
    have e3 := mul_le_of_le_one_left h3 hc1
    linarith

/-- Claim C6: for every well-formed input — engagement counters are naturals,
topic-preference weights lie in `[0, 1]`, and the three effective ranking
weights are non-negative — the composite score returned by
`compute_ranking_score` lies in the closed interval `[0, 1]`. -/
theorem score_in_unit_interval (fp : FullPost) (post_time now : ℝ)
    (weights : RankingWeights) (topics : List TopicPref) (profiles : List String)
    (htw : ∀ tp ∈ topics, 0 ≤ tp.weight ∧ tp.weight ≤ 1)
    (h1 : 0 ≤ wRelevance weights) (h2 : 0 ≤ wPopularity weights)
    (h3 : 0 ≤ wRecency weights) :
    0 ≤ compute_ranking_score fp post_time now weights topics profiles
    ∧ compute_ranking_score fp post_time now weights topics profiles ≤ 1 := by
  obtain ⟨hr0, hr1⟩ := relevance_bounds fp topics profiles (fun tp h => (htw tp h).1)
  obtain ⟨hw1, hw2, hw3, hsum⟩ := normalizeWeights_props (wRelevance weights)
    (wPopularity weights) (wRecency weights) h1 h2 h3
  obtain ⟨hp0, hp1⟩ := popularity_bounds
    (fp.likeCount + fp.replyCount * 2 + fp.repostCount * 3 + fp.quoteCount * 2)
  obtain ⟨hc0, hc1⟩ := recency_bounds (now - post_time)
  exact convex_comb_unit _ _ _ _ _ _ hr0 hr1 hp0 hp1 hc0 hc1 hw1 hw2 hw3 hsum

/-- Witness for C6 at a concrete post, topic list and weight dict. -/
theorem score_in_unit_interval_witness :
    0 ≤ compute_ranking_score ⟨some "d", "hi", some "T", 3, 1, 0, 2⟩ 0 100
        ⟨some 1, some 0, none⟩ [⟨"ai", 1 / 2⟩] ["d"]
    ∧ compute_ranking_score ⟨some "d", "hi", some "T", 3, 1, 0, 2⟩ 0 100
        ⟨some 1, some 0, none⟩ [⟨"ai", 1 / 2⟩] ["d"] ≤ 1 :=
  score_in_unit_interval ⟨some "d", "hi", some "T", 3, 1, 0, 2⟩ 0 100
    ⟨some 1, some 0, none⟩ [⟨"ai", 1 / 2⟩] ["d"]
    (by intro tp h; simp at h; rw [h]; norm_num)
    (by norm_num [wRelevance]) (by norm_num [wPopularity]) (by norm_num [wRecency])

end Papillon
